import Mathlib

/-!
# Verification of the EncryptedOracleFHE contract

Shallow embedding of `src/contracts/EncryptedOracleFHE.sol` (an fhEVM
oracle contract) and, where the repository ships only a specification of a
component (the AggregationEngine), a model built from the spec's words.

Machine integers (`uint256`, `uint32`) are modelled as `Nat`; `uint32`
truncation is made explicit as `% 2 ^ 32` where the contract performs a
decode into `uint32`.  Solidity mappings are total functions with the
zero-value default; a `require` failure (revert) is an `Except.error` and
leaves the pre-state intact.  `euint32` ciphertext handles are opaque
`Nat`s (`FHE.toBytes32` is the identity on handles); the external FHE
gateway is modelled by letting the caller of `requestDataDecryption`
supply the request id the gateway would generate, and the signature
verifier `FHE.checkSignatures` is an arbitrary boolean predicate
parameter.
-/

/-- `struct EncryptedDataPoint { uint256 id; euint32 encryptedValue; uint256 timestamp; }` -/
structure EncryptedDataPoint where
  id : Nat
  encryptedValue : Nat
  timestamp : Nat
deriving DecidableEq, Repr

/-- `struct DecryptedDataPoint { uint32 value; bool isRevealed; }` -/
structure DecryptedDataPoint where
  value : Nat
  isRevealed : Bool
deriving DecidableEq, Repr

/-- The events the contract can emit. -/
inductive OracleEvent
  | DataSubmitted (id : Nat) (timestamp : Nat)
  | DecryptionRequested (id : Nat)
  | DataDecrypted (id : Nat)
deriving DecidableEq, Repr

/-- Revert reasons of the contract.  `alreadyDecrypted` is the string
`"Already decrypted"` (the spec's `AlreadyRevealed`), `invalidRequest` is
`"Invalid request"` (the spec's `UnknownRequest`), and
`checkSignaturesFailed` is a revert inside `FHE.checkSignatures` (the
spec's `VerificationFailed`). -/
inductive OracleError
  | alreadyDecrypted
  | invalidRequest
  | checkSignaturesFailed
deriving DecidableEq, Repr

/-- Contract storage plus the observable effects: the `dispatched` list
records each `FHE.requestDecryption` call as `(requestId, ciphertextBytes)`,
and `events` records emitted events in order. -/
structure OracleState where
  dataCount : Nat
  encryptedData : Nat → EncryptedDataPoint
  decryptedData : Nat → DecryptedDataPoint
  requestToDataId : Nat → Nat
  dispatched : List (Nat × Nat)
  events : List OracleEvent

/-- Point-update of a Solidity mapping. -/
def updMap {α : Type} (m : Nat → α) (k : Nat) (v : α) : Nat → α :=
  fun i => if i = k then v else m i

/-- Default (zero) value of an `EncryptedDataPoint` slot. -/
def defaultEnc : EncryptedDataPoint := ⟨0, 0, 0⟩

/-- Default (zero) value of a `DecryptedDataPoint` slot. -/
def defaultDec : DecryptedDataPoint := ⟨0, false⟩

/-- Storage of a freshly deployed contract: all counters zero, all
mappings at their zero defaults. -/
def initState : OracleState where
  dataCount := 0
  encryptedData := fun _ => defaultEnc
  decryptedData := fun _ => defaultDec
  requestToDataId := fun _ => 0
  dispatched := []
  events := []

/-- `submitEncryptedData(euint32 encryptedValue)`: increments `dataCount`,
stores the new `EncryptedDataPoint` under the fresh id, initialises the
`DecryptedDataPoint` to `(0, false)` and emits `DataSubmitted`.  The block
timestamp is an input of the environment.  Never reverts. -/
def submitEncryptedData (s : OracleState) (encryptedValue blockTimestamp : Nat) :
    OracleState :=
  let newId := s.dataCount + 1
  { s with
    dataCount := newId
    encryptedData := updMap s.encryptedData newId ⟨newId, encryptedValue, blockTimestamp⟩
    decryptedData := updMap s.decryptedData newId ⟨0, false⟩
    events := s.events ++ [OracleEvent.DataSubmitted newId blockTimestamp] }

/-- `requestDataDecryption(uint256 dataId)`: reverts with
`"Already decrypted"` when `decryptedData[dataId].isRevealed`; otherwise
dispatches the (single-element) ciphertext array to the FHE gateway,
records `requestToDataId[reqId] = dataId` and emits
`DecryptionRequested(dataId)`.  `reqId` is the request id the gateway
returns. -/
def requestDataDecryption (s : OracleState) (dataId reqId : Nat) :
    Except OracleError OracleState :=
  if (s.decryptedData dataId).isRevealed then
    .error .alreadyDecrypted
  else
    .ok { s with
      requestToDataId := updMap s.requestToDataId reqId dataId
      dispatched := s.dispatched ++ [(reqId, (s.encryptedData dataId).encryptedValue)]
      events := s.events ++ [OracleEvent.DecryptionRequested dataId] }

/-- `decryptDataPoint(uint256 requestId, bytes cleartexts, bytes proof)`:
looks up `dataId = requestToDataId[requestId]` and reverts with
`"Invalid request"` when it is zero; calls `FHE.checkSignatures`
(modelled by `verify`), reverting when it rejects; then decodes
`cleartexts` as a `uint32`, writes `decryptedData[dataId]`, and emits
`DataDecrypted(dataId)`.  The request mapping is left in place. -/
def decryptDataPoint (verify : Nat → Nat → Nat → Bool) (s : OracleState)
    (requestId cleartexts proof : Nat) : Except OracleError OracleState :=
  let dataId := s.requestToDataId requestId
  if dataId = 0 then
    .error .invalidRequest
  else if verify requestId cleartexts proof then
    .ok { s with
      decryptedData := updMap s.decryptedData dataId ⟨cleartexts % 2 ^ 32, true⟩
      events := s.events ++ [OracleEvent.DataDecrypted dataId] }
  else
    .error .checkSignaturesFailed

/-- `getDecryptedData(uint256 dataId)`: view returning
`(decryptedData[dataId].value, decryptedData[dataId].isRevealed)`. -/
def getDecryptedData (s : OracleState) (dataId : Nat) : Nat × Bool :=
  ((s.decryptedData dataId).value, (s.decryptedData dataId).isRevealed)

/-- One external transaction against the contract.  The `request`
constructor carries the request id the FHE gateway would return; the
`callback` constructor carries the gateway's callback arguments. -/
inductive Op
  | submit (encryptedValue blockTimestamp : Nat)
  | request (dataId reqId : Nat)
  | callback (requestId cleartexts proof : Nat)
deriving DecidableEq, Repr

/-- Execute one transaction; a revert leaves the state unchanged. -/
def execOp (verify : Nat → Nat → Nat → Bool) (s : OracleState) : Op → OracleState
  | .submit v t => submitEncryptedData s v t
  | .request d r =>
    match requestDataDecryption s d r with
    | .ok s2 => s2
    | .error _ => s
  | .callback r c p =>
    match decryptDataPoint verify s r c p with
    | .ok s2 => s2
    | .error _ => s

/-- Execute a sequence of transactions from a given state. -/
def execTrace (verify : Nat → Nat → Nat → Bool) (s : OracleState) : List Op → OracleState
  | [] => s
  | op :: ops => execTrace verify (execOp verify s op) ops

/-- The ids assigned by the `submit` calls of a trace, in order. -/
def assignedIds (verify : Nat → Nat → Nat → Bool) (s : OracleState) : List Op → List Nat
  | [] => []
  | op :: ops =>
    match op with
    | .submit _ _ => (s.dataCount + 1) :: assignedIds verify (execOp verify s op) ops
    | _ => assignedIds verify (execOp verify s op) ops

/-- A verifier that accepts every callback (an environment in which the
gateway's signatures check out). -/
def vTrue : Nat → Nat → Nat → Bool := fun _ _ _ => true

/-- A verifier that rejects every callback. -/
def vFalse : Nat → Nat → Nat → Bool := fun _ _ _ => false

/-- Whether an `Except` is a success. -/
def exceptOk {ε α : Type} : Except ε α → Bool
  | .ok _ => true
  | .error _ => false

/-- Trace: one submission (assigned id 1), then a decryption request for
id 1 to which the gateway assigns request id 7. -/
def cexS2 : OracleState := execTrace vTrue initState [.submit 42 100, .request 1 7]

/-- `cexS2` after a first delivery of the callback for request 7 with
cleartext 5, the verifier accepting. -/
def cexS3 : OracleState := execOp vTrue cexS2 (.callback 7 5 0)

/-- `cexS3` after a second delivery of the callback for request 7, now
with cleartext 9. -/
def cexS4 : OracleState := execOp vTrue cexS3 (.callback 7 9 0)

/-- A concrete three-slot ciphertext store used to instantiate the
aggregation theorem. -/
def wStore : Nat → Option Nat := fun i => if i ≤ 3 then some (i * 10) else none

/-!
## AggregationEngine (modelled from the spec)

The repository's `src/` contains no AggregationEngine implementation
(spec §4.2); it is modelled here from the spec's words.
-/

/-- Errors of the spec's AggregationEngine (§4.2/§7). -/
inductive AggError
  | MissingInput
  | EmptyInput
deriving DecidableEq, Repr

/-- Modelled from the spec: resolution of an id sequence through the
CiphertextStore's `get(id) -> DataPoint | NotFound` read interface —
`some` of all resolved ciphertexts, or `none` as soon as any id does not
resolve (aggregation is all-or-nothing, §4.2). -/
def resolveAll {C : Type} (store : Nat → Option C) : List Nat → Option (List C)
  | [] => some []
  | i :: is =>
    match store i, resolveAll store is with
    | some c, some cs => some (c :: cs)
    | _, _ => none

/-- Modelled from the spec: the AggregationEngine is absent from `src/`;
per §4.2, `aggregate(ids, operator)` fails with `MissingInput` if any id
does not resolve via CiphertextStore, with `EmptyInput` if the sequence is
empty, and otherwise folds the referenced ciphertexts left-to-right using
the supplied associative operator, returning a new ciphertext. -/
def aggregate {C : Type} (store : Nat → Option C) (op : C → C → C) (ids : List Nat) :
    Except AggError C :=
  match resolveAll store ids with
  | none => .error .MissingInput
  | some [] => .error .EmptyInput
  | some (c :: cs) => .ok (cs.foldl op c)

/-- Fold step lifted to `Option` so that a fold of a non-empty list with no
initial accumulator can start from `none`. -/
def aggStep {C : Type} (op : C → C → C) : Option C → C → Option C
  | none, a => some a
  | some b, a => some (op b a)

theorem resolveAll_none_of_missing {C : Type} (store : Nat → Option C) :
    ∀ (ids : List Nat) (i : Nat), i ∈ ids → store i = none → resolveAll store ids = none := by
  intro ids
  induction ids with
  | nil => intro i hi; cases hi
  | cons j is ih =>
    intro i hi hnone
    rcases List.mem_cons.mp hi with h | h
    · subst h; simp [resolveAll, hnone]
    · cases hj : store j <;> simp [resolveAll, hj, ih i h hnone]

theorem exists_missing_of_resolveAll_none {C : Type} (store : Nat → Option C) :
    ∀ ids : List Nat, resolveAll store ids = none → ∃ i ∈ ids, store i = none := by
  intro ids
  induction ids with
  | nil => intro h; simp [resolveAll] at h
  | cons j is ih =>
    intro h
    cases hj : store j with
    | none => exact ⟨j, List.mem_cons_self j is, hj⟩
    | some c =>
      cases hr : resolveAll store is with
      | none =>
        obtain ⟨i, hi, hni⟩ := ih hr
        exact ⟨i, List.mem_cons_of_mem j hi, hni⟩
      | some cs =>
        rw [show resolveAll store (j :: is) = some (c :: cs) from by
          simp [resolveAll, hj, hr]] at h
        cases h

theorem resolveAll_eq_some {C : Type} (store : Nat → Option C) (ids : List Nat)
    (l : List C) (h : resolveAll store ids = some l) : l = ids.filterMap store := by
  induction ids generalizing l with
  | nil => simp [resolveAll] at h; simp [h]
  | cons i is ih =>
    simp only [resolveAll] at h
    cases hi : store i with
    | none => rw [hi] at h; cases h
    | some c =>
      rw [hi] at h
      cases hr : resolveAll store is with
      | none => rw [hr] at h; cases h
      | some cs =>
        rw [hr] at h
        cases h
        simp [List.filterMap_cons, hi, ih cs hr]

theorem foldl_aggStep_some {C : Type} (op : C → C → C) (cs : List C) (b : C) :
    cs.foldl (aggStep op) (some b) = some (cs.foldl op b) := by
  induction cs generalizing b with
  | nil => rfl
  | cons c cs ih => simp [List.foldl, aggStep, ih]

theorem aggStep_right_comm {C : Type} (op : C → C → C)
    (hcomm : ∀ a b, op a b = op b a)
    (hassoc : ∀ a b c, op (op a b) c = op a (op b c)) :
    ∀ (z : Option C) (x y : C), aggStep op (aggStep op z x) y = aggStep op (aggStep op z y) x := by
  intro z x y
  cases z with
  | none => simp [aggStep, hcomm x y]
  | some b => simp [aggStep, hassoc, hcomm x y]

theorem foldl_of_perm {C : Type} (op : C → C → C)
    (hcomm : ∀ a b, op a b = op b a)
    (hassoc : ∀ a b c, op (op a b) c = op a (op b c))
    (c1 c2 : C) (cs1 cs2 : List C) (hp : List.Perm (c1 :: cs1) (c2 :: cs2)) :
    cs1.foldl op c1 = cs2.foldl op c2 := by
  have h := hp.foldl_eq' (f := aggStep op)
    (fun x _ y _ z => aggStep_right_comm op hcomm hassoc z x y) none
  simp only [List.foldl, aggStep, foldl_aggStep_some] at h
  exact Option.some_injective _ h

/-!
## Helper lemmas about the contract's transition system
-/

theorem requestDataDecryption_ok_dataCount {s : OracleState} {d r : Nat} {s2 : OracleState}
    (h : requestDataDecryption s d r = .ok s2) : s2.dataCount = s.dataCount := by
  unfold requestDataDecryption at h
  split at h
  · cases h
  · cases h; rfl

theorem decryptDataPoint_ok_dataCount {verify : Nat → Nat → Nat → Bool} {s : OracleState}
    {r c p : Nat} {s2 : OracleState}
    (h : decryptDataPoint verify s r c p = .ok s2) : s2.dataCount = s.dataCount := by
  by_cases h0 : s.requestToDataId r = 0
  · simp [decryptDataPoint, h0] at h
  · by_cases hv : verify r c p = true
    · simp [decryptDataPoint, h0, hv] at h
      subst h
      rfl
    · simp [decryptDataPoint, h0, hv] at h

theorem execOp_dataCount_le (verify : Nat → Nat → Nat → Bool) (s : OracleState) (op : Op) :
    s.dataCount ≤ (execOp verify s op).dataCount := by
  cases op with
  | submit v t => exact Nat.le_succ _
  | request d r =>
    simp only [execOp]
    cases h : requestDataDecryption s d r with
    | ok s2 => exact Nat.le_of_eq (requestDataDecryption_ok_dataCount h).symm
    | error e => exact Nat.le_refl _
  | callback r c p =>
    simp only [execOp]
    cases h : decryptDataPoint verify s r c p with
    | ok s2 => exact Nat.le_of_eq (decryptDataPoint_ok_dataCount h).symm
    | error e => exact Nat.le_refl _

theorem execTrace_dataCount_le (verify : Nat → Nat → Nat → Bool) (ops : List Op) :
    ∀ s : OracleState, s.dataCount ≤ (execTrace verify s ops).dataCount := by
  induction ops with
  | nil => intro s; exact Nat.le_refl _
  | cons op ops ih =>
    intro s
    exact Nat.le_trans (execOp_dataCount_le verify s op) (ih (execOp verify s op))

theorem requestDataDecryption_ok_shape {s : OracleState} {d r : Nat} {s2 : OracleState}
    (h : requestDataDecryption s d r = .ok s2) :
    s2.encryptedData = s.encryptedData ∧ s2.decryptedData = s.decryptedData ∧
    s2.requestToDataId = updMap s.requestToDataId r d := by
  by_cases hrev : (s.decryptedData d).isRevealed = true
  · simp [requestDataDecryption, hrev] at h
  · simp only [requestDataDecryption, hrev, if_false, Bool.false_eq_true] at h
    simp only [Except.ok.injEq] at h
    subst h
    exact ⟨rfl, rfl, rfl⟩

theorem decryptDataPoint_ok_shape {verify : Nat → Nat → Nat → Bool} {s : OracleState}
    {r c p : Nat} {s2 : OracleState}
    (h : decryptDataPoint verify s r c p = .ok s2) :
    s.requestToDataId r ≠ 0 ∧
    s2.encryptedData = s.encryptedData ∧
    s2.decryptedData = updMap s.decryptedData (s.requestToDataId r) ⟨c % 2 ^ 32, true⟩ ∧
    s2.requestToDataId = s.requestToDataId := by
  by_cases h0 : s.requestToDataId r = 0
  · simp [decryptDataPoint, h0] at h
  · by_cases hv : verify r c p = true
    · simp only [decryptDataPoint, h0, hv, if_true, if_false, Except.ok.injEq] at h
      subst h
      exact ⟨h0, rfl, rfl, rfl⟩
    · simp [decryptDataPoint, h0, hv] at h

theorem execOp_preserves_untouched (verify : Nat → Nat → Nat → Bool) (dataId : Nat)
    (s : OracleState) (op : Op)
    (h1 : s.encryptedData dataId = defaultEnc)
    (h2 : s.decryptedData dataId = defaultDec)
    (h3 : ∀ r, s.requestToDataId r ≠ dataId)
    (hop : ∀ d r, op = Op.request d r → d ≠ dataId)
    (hfresh : (execOp verify s op).dataCount < dataId) :
    (execOp verify s op).encryptedData dataId = defaultEnc ∧
    (execOp verify s op).decryptedData dataId = defaultDec ∧
    ∀ r, (execOp verify s op).requestToDataId r ≠ dataId := by
  cases op with
  | submit v t =>
    have hne : ¬ dataId = s.dataCount + 1 := by
      have hh : (execOp verify s (.submit v t)).dataCount = s.dataCount + 1 := rfl
      omega
    refine ⟨?_, ?_, ?_⟩
    · show updMap s.encryptedData (s.dataCount + 1) ⟨s.dataCount + 1, v, t⟩ dataId = defaultEnc
      rw [updMap, if_neg hne]
      exact h1
    · show updMap s.decryptedData (s.dataCount + 1) ⟨0, false⟩ dataId = defaultDec
      rw [updMap, if_neg hne]
      exact h2
    · intro r
      exact h3 r
  | request d r0 =>
    have hd : d ≠ dataId := hop d r0 rfl
    simp only [execOp]
    cases hreq : requestDataDecryption s d r0 with
    | error e => exact ⟨h1, h2, h3⟩
    | ok s2 =>
      obtain ⟨he, hdp, hrm⟩ := requestDataDecryption_ok_shape hreq
      refine ⟨?_, ?_, ?_⟩
      · rw [he]; exact h1
      · rw [hdp]; exact h2
      · intro r1
        rw [hrm, updMap]
        by_cases hr1 : r1 = r0
        · rw [if_pos hr1]; exact hd
        · rw [if_neg hr1]; exact h3 r1
  | callback r0 c p =>
    simp only [execOp]
    cases hcb : decryptDataPoint verify s r0 c p with
    | error e => exact ⟨h1, h2, h3⟩
    | ok s2 =>
      obtain ⟨h0, he, hdp, hrm⟩ := decryptDataPoint_ok_shape hcb
      refine ⟨?_, ?_, ?_⟩
      · rw [he]; exact h1
      · rw [hdp, updMap, if_neg (fun hx => h3 r0 hx.symm)]
        exact h2
      · intro r1
        rw [hrm]
        exact h3 r1

theorem execTrace_untouched (verify : Nat → Nat → Nat → Bool) (dataId : Nat) :
    ∀ (ops : List Op) (s : OracleState),
      s.encryptedData dataId = defaultEnc →
      s.decryptedData dataId = defaultDec →
      (∀ r, s.requestToDataId r ≠ dataId) →
      (∀ d r, Op.request d r ∈ ops → d ≠ dataId) →
      (execTrace verify s ops).dataCount < dataId →
      (execTrace verify s ops).encryptedData dataId = defaultEnc ∧
      (execTrace verify s ops).decryptedData dataId = defaultDec ∧
      ∀ r, (execTrace verify s ops).requestToDataId r ≠ dataId := by
  intro ops
  induction ops with
  | nil => intro s h1 h2 h3 _ _; exact ⟨h1, h2, h3⟩
  | cons op ops ih =>
    intro s h1 h2 h3 hops hfresh
    have hfresh1 : (execOp verify s op).dataCount < dataId :=
      Nat.lt_of_le_of_lt (execTrace_dataCount_le verify ops (execOp verify s op)) hfresh
    obtain ⟨g1, g2, g3⟩ := execOp_preserves_untouched verify dataId s op h1 h2 h3
      (fun d r hdr => hops d r (by rw [← hdr]; exact List.mem_cons_self op ops)) hfresh1
    exact ih (execOp verify s op) g1 g2 g3
      (fun d r hm => hops d r (List.mem_cons_of_mem op hm)) hfresh

theorem execOp_request_dataCount (verify : Nat → Nat → Nat → Bool) (s : OracleState)
    (d r : Nat) : (execOp verify s (.request d r)).dataCount = s.dataCount := by
  simp only [execOp]
  cases h : requestDataDecryption s d r with
  | ok s2 => exact requestDataDecryption_ok_dataCount h
  | error e => rfl

theorem execOp_callback_dataCount (verify : Nat → Nat → Nat → Bool) (s : OracleState)
    (r c p : Nat) : (execOp verify s (.callback r c p)).dataCount = s.dataCount := by
  simp only [execOp]
  cases h : decryptDataPoint verify s r c p with
  | ok s2 => exact decryptDataPoint_ok_dataCount h
  | error e => rfl

theorem assignedIds_pairwise (verify : Nat → Nat → Nat → Bool) :
    ∀ (ops : List Op) (s : OracleState),
      List.Pairwise (· < ·) (assignedIds verify s ops) ∧
      ∀ x ∈ assignedIds verify s ops, s.dataCount < x := by
  intro ops
  induction ops with
  | nil => intro s; exact ⟨List.Pairwise.nil, fun x hx => absurd hx (List.not_mem_nil x)⟩
  | cons op ops ih =>
    intro s
    cases op with
    | submit v t =>
      obtain ⟨hp, hgt⟩ := ih (execOp verify s (.submit v t))
      have hc : (execOp verify s (.submit v t)).dataCount = s.dataCount + 1 := rfl
      rw [hc] at hgt
      constructor
      · exact List.Pairwise.cons hgt hp
      · intro x hx
        rcases List.mem_cons.mp hx with h | h
        · rw [h]; exact Nat.lt_succ_self _
        · exact Nat.lt_of_succ_lt (hgt x h)
    | request d r =>
      obtain ⟨hp, hgt⟩ := ih (execOp verify s (.request d r))
      have hc := execOp_request_dataCount verify s d r
      refine ⟨hp, fun x hx => ?_⟩
      have := hgt x hx
      omega
    | callback r c p =>
      obtain ⟨hp, hgt⟩ := ih (execOp verify s (.callback r c p))
      have hc := execOp_callback_dataCount verify s r c p
      refine ⟨hp, fun x hx => ?_⟩
      have := hgt x hx
      omega

/-!
## Claim theorems
-/

theorem requestDataDecryption_ok_eq {s : OracleState} {dataId reqId : Nat}
    (h : (s.decryptedData dataId).isRevealed = false) :
    requestDataDecryption s dataId reqId = .ok { s with
      requestToDataId := updMap s.requestToDataId reqId dataId
      dispatched := s.dispatched ++ [(reqId, (s.encryptedData dataId).encryptedValue)]
      events := s.events ++ [OracleEvent.DecryptionRequested dataId] } := by
  simp [requestDataDecryption, h]

theorem decryptDataPoint_ok_eq {verify : Nat → Nat → Nat → Bool} {s : OracleState}
    {reqId c p : Nat} (hmap : s.requestToDataId reqId ≠ 0)
    (hv : verify reqId c p = true) :
    decryptDataPoint verify s reqId c p = .ok { s with
      decryptedData := updMap s.decryptedData (s.requestToDataId reqId) ⟨c % 2 ^ 32, true⟩
      events := s.events ++ [OracleEvent.DataDecrypted (s.requestToDataId reqId)] } := by
  simp [decryptDataPoint, hmap, hv]

/-- C1 (counterexample): after submit(42), request for id 1 under request
id 7, and one successful callback delivery (cleartext 5), the mapping
`requestToDataId[7]` is still `1` — it is not removed — and a second
delivery of a callback for request id 7 is accepted again (not rejected
with `"Invalid request"`/`UnknownRequest`), overwriting the clear value
with 9.  This refutes the claimed single-use removal of the `requestId`
mapping. -/
theorem decryptDataPoint_replay_accepted_cex :
    exceptOk (decryptDataPoint vTrue cexS2 7 5 0) = true ∧
    cexS3.requestToDataId 7 = 1 ∧
    getDecryptedData cexS3 1 = (5, true) ∧
    exceptOk (decryptDataPoint vTrue cexS3 7 9 0) = true ∧
    getDecryptedData cexS4 1 = (9, true) := by
  decide

/-- C1 (amended): `decryptDataPoint` never removes the `requestId`
mapping.  For any state in which `requestToDataId[reqId]` is non-zero and
the verifier accepts, the callback succeeds, the mapping is unchanged
afterwards, and a second delivery of the same callback succeeds again and
rewrites the target's value — there is no single-use consumption. -/
theorem decryptDataPoint_requestId_not_single_use
    (verify : Nat → Nat → Nat → Bool) (s : OracleState) (reqId c p : Nat)
    (hmap : s.requestToDataId reqId ≠ 0)
    (hv : verify reqId c p = true) :
    ∃ s2, decryptDataPoint verify s reqId c p = .ok s2 ∧
      s2.requestToDataId reqId = s.requestToDataId reqId ∧
      ∃ s3, decryptDataPoint verify s2 reqId c p = .ok s3 ∧
        (s3.decryptedData (s.requestToDataId reqId)).value = c % 2 ^ 32 := by
  refine ⟨_, decryptDataPoint_ok_eq hmap hv, rfl, _, decryptDataPoint_ok_eq hmap hv, ?_⟩
  simp [updMap]

/-- C1 (witness): the amended theorem applied at the concrete state
`cexS2`, request id 7, cleartext 5. -/
theorem decryptDataPoint_requestId_not_single_use_witness :
    cexS2.requestToDataId 7 ≠ 0 ∧ vTrue 7 5 0 = true ∧
    (∃ s2, decryptDataPoint vTrue cexS2 7 5 0 = .ok s2 ∧
      s2.requestToDataId 7 = cexS2.requestToDataId 7 ∧
      ∃ s3, decryptDataPoint vTrue s2 7 5 0 = .ok s3 ∧
        (s3.decryptedData (cexS2.requestToDataId 7)).value = 5 % 2 ^ 32) :=
  ⟨by decide, rfl,
    decryptDataPoint_requestId_not_single_use vTrue cexS2 7 5 0 (by decide) rfl⟩

/-- C2 (counterexample): in `cexS2` a decryption request for target 1 is
outstanding (`requestToDataId[7] = 1`, target not revealed), yet a second
`requestDataDecryption(1)` succeeds instead of failing with
`RequestAlreadyPending`, so two outstanding requests for the same target
coexist.  The contract tracks no pending state at all. -/
theorem requestDataDecryption_pending_accepted_cex :
    cexS2.requestToDataId 7 = 1 ∧
    (cexS2.decryptedData 1).isRevealed = false ∧
    exceptOk (requestDataDecryption cexS2 1 8) = true ∧
    (execOp vTrue cexS2 (.request 1 8)).requestToDataId 8 = 1 ∧
    (execOp vTrue cexS2 (.request 1 8)).requestToDataId 7 = 1 := by
  decide

/-- C2 (amended): `requestDataDecryption` succeeds on every target that is
not yet revealed, even when a decryption request for it is already
outstanding; the only guard is the `"Already decrypted"` check, so
multiple outstanding requests per target are possible. -/
theorem requestDataDecryption_no_pending_guard (s : OracleState) (dataId reqId : Nat)
    (h : (s.decryptedData dataId).isRevealed = false) :
    ∃ s2, requestDataDecryption s dataId reqId = .ok s2 ∧
      s2.requestToDataId reqId = dataId := by
  refine ⟨_, requestDataDecryption_ok_eq h, ?_⟩
  simp [updMap]

/-- C2 (witness): the amended theorem applied at `cexS2`, target 1 (which
already has the outstanding request 7), fresh request id 8. -/
theorem requestDataDecryption_no_pending_guard_witness :
    (cexS2.decryptedData 1).isRevealed = false ∧
    (∃ s2, requestDataDecryption cexS2 1 8 = .ok s2 ∧
      s2.requestToDataId 8 = 1) :=
  ⟨by decide, requestDataDecryption_no_pending_guard cexS2 1 8 (by decide)⟩

/-- C3 (counterexample): target 1's clear value is written twice — first
to 5 by the callback for request 7, then, after it is already revealed,
overwritten to 9 by a second delivery for the same request id — refuting
both "written at most once" and "immutable once set". -/
theorem clearValue_overwritten_cex :
    getDecryptedData cexS3 1 = (5, true) ∧
    exceptOk (decryptDataPoint vTrue cexS3 7 9 0) = true ∧
    getDecryptedData cexS4 1 = (9, true) := by
  decide

/-- C3 (amended): a target's clear value is not immutable: any verified
callback whose request id still maps to the target — mappings are never
removed — succeeds even when the target is already revealed, and
overwrites its value with the new cleartext. -/
theorem clearValue_not_immutable
    (verify : Nat → Nat → Nat → Bool) (s : OracleState) (reqId c p : Nat)
    (hmap : s.requestToDataId reqId ≠ 0)
    (_hrev : (s.decryptedData (s.requestToDataId reqId)).isRevealed = true)
    (hv : verify reqId c p = true) :
    ∃ s2, decryptDataPoint verify s reqId c p = .ok s2 ∧
      (s2.decryptedData (s.requestToDataId reqId)).value = c % 2 ^ 32 ∧
      (s2.decryptedData (s.requestToDataId reqId)).isRevealed = true := by
  refine ⟨_, decryptDataPoint_ok_eq hmap hv, ?_, ?_⟩ <;> simp [updMap]

/-- C3 (witness): the amended theorem applied at `cexS3`, where target 1
is already revealed with value 5, delivering cleartext 9 for request 7. -/
theorem clearValue_not_immutable_witness :
    cexS3.requestToDataId 7 ≠ 0 ∧
    (cexS3.decryptedData (cexS3.requestToDataId 7)).isRevealed = true ∧
    vTrue 7 9 0 = true ∧
    (∃ s2, decryptDataPoint vTrue cexS3 7 9 0 = .ok s2 ∧
      (s2.decryptedData (cexS3.requestToDataId 7)).value = 9 % 2 ^ 32 ∧
      (s2.decryptedData (cexS3.requestToDataId 7)).isRevealed = true) :=
  ⟨by decide, by decide, rfl,
    clearValue_not_immutable vTrue cexS3 7 9 0 (by decide) (by decide) rfl⟩

/-- C4: for the spec-modelled AggregationEngine, aggregation of the empty
sequence fails with `EmptyInput`; any unresolved id fails the whole call
with `MissingInput`; and for a commutative (and, per §4.2, associative)
operator the result is invariant under permutation of the id sequence. -/
theorem aggregate_empty_missing_perm {C : Type} (store : Nat → Option C) (op : C → C → C)
    (hcomm : ∀ a b, op a b = op b a)
    (hassoc : ∀ a b c, op (op a b) c = op a (op b c)) :
    aggregate store op ([] : List Nat) = .error .EmptyInput ∧
    (∀ (ids : List Nat) (i : Nat), i ∈ ids → store i = none →
      aggregate store op ids = .error .MissingInput) ∧
    ∀ ids1 ids2 : List Nat, List.Perm ids1 ids2 →
      aggregate store op ids1 = aggregate store op ids2 := by
  refine ⟨rfl, ?_, ?_⟩
  · intro ids i hi hni
    simp [aggregate, resolveAll_none_of_missing store ids i hi hni]
  · intro ids1 ids2 hp
    cases h1 : resolveAll store ids1 with
    | none =>
      obtain ⟨i, hi, hni⟩ := exists_missing_of_resolveAll_none store ids1 h1
      have h2 := resolveAll_none_of_missing store ids2 i (hp.mem_iff.mp hi) hni
      simp [aggregate, h1, h2]
    | some l1 =>
      cases h2 : resolveAll store ids2 with
      | none =>
        obtain ⟨i, hi, hni⟩ := exists_missing_of_resolveAll_none store ids2 h2
        have h1n := resolveAll_none_of_missing store ids1 i (hp.mem_iff.mpr hi) hni
        rw [h1n] at h1
        cases h1
      | some l2 =>
        have e1 := resolveAll_eq_some store ids1 l1 h1
        have e2 := resolveAll_eq_some store ids2 l2 h2
        have hpl : List.Perm l1 l2 := by
          rw [e1, e2]
          exact hp.filterMap store
        cases l1 with
        | nil =>
          have h0 : l2 = [] := hpl.symm.eq_nil
          subst h0
          simp [aggregate, h1, h2]
        | cons c1 cs1 =>
          cases l2 with
          | nil => exact absurd hpl.eq_nil (by simp)
          | cons c2 cs2 =>
            simp only [aggregate, h1, h2]
            rw [foldl_of_perm op hcomm hassoc c1 c2 cs1 cs2 hpl]

/-- C4 (witness): the aggregation theorem applied to addition over a
concrete store. -/
theorem aggregate_empty_missing_perm_witness :
    (∀ a b : Nat, a + b = b + a) ∧ (∀ a b c : Nat, a + b + c = a + (b + c)) ∧
    (aggregate wStore (· + ·) ([] : List Nat) = .error .EmptyInput ∧
      (∀ (ids : List Nat) (i : Nat), i ∈ ids → wStore i = none →
        aggregate wStore (· + ·) ids = .error .MissingInput) ∧
      ∀ ids1 ids2 : List Nat, List.Perm ids1 ids2 →
        aggregate wStore (· + ·) ids1 = aggregate wStore (· + ·) ids2) :=
  ⟨Nat.add_comm, Nat.add_assoc,
    aggregate_empty_missing_perm wStore (· + ·) Nat.add_comm Nat.add_assoc⟩

/-- C5: `requestDataDecryption` on a revealed target reverts with
`"Already decrypted"` (the spec's `AlreadyRevealed`) and the transaction
leaves all state unchanged. -/
theorem requestDataDecryption_already_revealed
    (verify : Nat → Nat → Nat → Bool) (s : OracleState) (dataId reqId : Nat)
    (h : (s.decryptedData dataId).isRevealed = true) :
    requestDataDecryption s dataId reqId = .error .alreadyDecrypted ∧
    execOp verify s (.request dataId reqId) = s := by
  have h1 : requestDataDecryption s dataId reqId = .error .alreadyDecrypted := by
    rw [requestDataDecryption, if_pos h]
  exact ⟨h1, by simp [execOp, h1]⟩

/-- C5 (witness): after the successful reveal of data point 1 in `cexS3`,
a further request for it is rejected and changes nothing. -/
theorem requestDataDecryption_already_revealed_witness :
    (cexS3.decryptedData 1).isRevealed = true ∧
    (requestDataDecryption cexS3 1 9 = .error .alreadyDecrypted ∧
      execOp vTrue cexS3 (.request 1 9) = cexS3) :=
  ⟨by decide, requestDataDecryption_already_revealed vTrue cexS3 1 9 (by decide)⟩

/-- C6: across every transaction sequence from deployment, the ids
assigned by `submitEncryptedData` are strictly increasing, hence unique —
no id is ever assigned to a second data point. -/
theorem submit_ids_strictly_increasing (verify : Nat → Nat → Nat → Bool) (ops : List Op) :
    List.Sorted (· < ·) (assignedIds verify initState ops) ∧
    (assignedIds verify initState ops).Nodup := by
  have hp := (assignedIds_pairwise verify ops initState).1
  exact ⟨hp, hp.imp Nat.ne_of_lt⟩

/-- C7: a callback whose `requestId` has no recorded mapping (the mapping
slot holds the zero default) reverts with `"Invalid request"`
(`UnknownRequest`) and the transaction mutates no state. -/
theorem decryptDataPoint_unknown_request
    (verify : Nat → Nat → Nat → Bool) (s : OracleState) (requestId c p : Nat)
    (h : s.requestToDataId requestId = 0) :
    decryptDataPoint verify s requestId c p = .error .invalidRequest ∧
    execOp verify s (.callback requestId c p) = s := by
  have h1 : decryptDataPoint verify s requestId c p = .error .invalidRequest := by
    simp [decryptDataPoint, h]
  exact ⟨h1, by simp [execOp, h1]⟩

/-- C7 (witness): on the freshly deployed contract, a callback for the
unknown request id 3 is rejected without any state change. -/
theorem decryptDataPoint_unknown_request_witness :
    initState.requestToDataId 3 = 0 ∧
    (decryptDataPoint vTrue initState 3 1 2 = .error .invalidRequest ∧
      execOp vTrue initState (.callback 3 1 2) = initState) :=
  ⟨rfl, decryptDataPoint_unknown_request vTrue initState 3 1 2 rfl⟩

/-- C8: for a valid `requestId` (non-zero mapping) whose triple the
verifier rejects, the callback reverts (`VerificationFailed`), the
transaction leaves state unchanged, and the target is not advanced: it
stays unrevealed with its clear value unset. -/
theorem decryptDataPoint_verification_failed
    (verify : Nat → Nat → Nat → Bool) (s : OracleState) (requestId c p : Nat)
    (hmap : s.requestToDataId requestId ≠ 0)
    (hpend : (s.decryptedData (s.requestToDataId requestId)).isRevealed = false)
    (hv : verify requestId c p = false) :
    decryptDataPoint verify s requestId c p = .error .checkSignaturesFailed ∧
    execOp verify s (.callback requestId c p) = s ∧
    ((execOp verify s (.callback requestId c p)).decryptedData
      (s.requestToDataId requestId)).isRevealed = false := by
  have h1 : decryptDataPoint verify s requestId c p = .error .checkSignaturesFailed := by
    simp [decryptDataPoint, hmap, hv]
  have h2 : execOp verify s (.callback requestId c p) = s := by simp [execOp, h1]
  exact ⟨h1, h2, by rw [h2]; exact hpend⟩

/-- C8 (witness): in `cexS2` (request 7 outstanding for target 1), a
callback delivered under a rejecting verifier fails and target 1 stays
unrevealed. -/
theorem decryptDataPoint_verification_failed_witness :
    cexS2.requestToDataId 7 ≠ 0 ∧
    (cexS2.decryptedData (cexS2.requestToDataId 7)).isRevealed = false ∧
    vFalse 7 5 0 = false ∧
    (decryptDataPoint vFalse cexS2 7 5 0 = .error .checkSignaturesFailed ∧
      execOp vFalse cexS2 (.callback 7 5 0) = cexS2 ∧
      ((execOp vFalse cexS2 (.callback 7 5 0)).decryptedData
        (cexS2.requestToDataId 7)).isRevealed = false) :=
  ⟨by decide, by decide, rfl,
    decryptDataPoint_verification_failed vFalse cexS2 7 5 0 (by decide) (by decide) rfl⟩

/-- C9: for an id never assigned by any submit call (it exceeds the final
`dataCount`) and never targeted by a request, `requestDataDecryption`
does not fail with any NotFound-style error: it passes the not-revealed
check on the default record and succeeds, dispatches a decryption request
over the default (zero) ciphertext handle, records the `requestId`
mapping to the nonexistent id, and emits `DecryptionRequested(id)`. -/
theorem requestDataDecryption_nonexistent_id
    (verify : Nat → Nat → Nat → Bool) (ops : List Op) (dataId reqId : Nat)
    (hfresh : (execTrace verify initState ops).dataCount < dataId)
    (hnoreq : ∀ d r, Op.request d r ∈ ops → d ≠ dataId) :
    ∃ s2, requestDataDecryption (execTrace verify initState ops) dataId reqId = .ok s2 ∧
      s2.requestToDataId reqId = dataId ∧
      s2.dispatched = (execTrace verify initState ops).dispatched ++ [(reqId, 0)] ∧
      s2.events = (execTrace verify initState ops).events
        ++ [OracleEvent.DecryptionRequested dataId] := by
  have hpos : 0 < dataId := Nat.lt_of_le_of_lt (Nat.zero_le _) hfresh
  obtain ⟨h1, h2, _⟩ := execTrace_untouched verify dataId ops initState rfl rfl
    (fun r => Nat.ne_of_lt hpos) hnoreq hfresh
  have hrev : ((execTrace verify initState ops).decryptedData dataId).isRevealed = false := by
    rw [h2]; rfl
  refine ⟨_, requestDataDecryption_ok_eq hrev, ?_, ?_, rfl⟩
  · simp [updMap]
  · rw [h1]
    simp [defaultEnc]

/-- C9 (witness): after one submission (id 1 assigned), requesting
decryption of the never-assigned id 5 under request id 11 succeeds with
the claimed effects. -/
theorem requestDataDecryption_nonexistent_id_witness :
    (execTrace vTrue initState [.submit 42 100]).dataCount < 5 ∧
    (∀ d r, Op.request d r ∈ [Op.submit 42 100] → d ≠ 5) ∧
    (∃ s2, requestDataDecryption (execTrace vTrue initState [.submit 42 100]) 5 11 = .ok s2 ∧
      s2.requestToDataId 11 = 5 ∧
      s2.dispatched = (execTrace vTrue initState [.submit 42 100]).dispatched ++ [(11, 0)] ∧
      s2.events = (execTrace vTrue initState [.submit 42 100]).events
        ++ [OracleEvent.DecryptionRequested 5]) :=
  ⟨by decide, fun d r hm => by simp at hm,
    requestDataDecryption_nonexistent_id vTrue [.submit 42 100] 5 11 (by decide)
      (fun d r hm => by simp at hm)⟩

/-- C10: `getDecryptedData` on an id never assigned by a submit call (and
never targeted by a request) succeeds and returns `(0, false)` — exactly
what it returns for a freshly submitted, not yet revealed id — so this
read interface cannot distinguish an unsubmitted id from a
submitted-but-unrevealed one. -/
theorem getDecryptedData_unsubmitted_default
    (verify : Nat → Nat → Nat → Bool) (ops : List Op) (dataId : Nat)
    (hfresh : (execTrace verify initState ops).dataCount < dataId)
    (hnoreq : ∀ d r, Op.request d r ∈ ops → d ≠ dataId) :
    getDecryptedData (execTrace verify initState ops) dataId = (0, false) ∧
    ∀ v t, getDecryptedData (submitEncryptedData (execTrace verify initState ops) v t)
      ((execTrace verify initState ops).dataCount + 1) = (0, false) := by
  have hpos : 0 < dataId := Nat.lt_of_le_of_lt (Nat.zero_le _) hfresh
  obtain ⟨_, h2, _⟩ := execTrace_untouched verify dataId ops initState rfl rfl
    (fun r => Nat.ne_of_lt hpos) hnoreq hfresh
  constructor
  · simp [getDecryptedData, h2, defaultDec]
  · intro v t
    simp [getDecryptedData, submitEncryptedData, updMap]

/-- C10 (witness): after one submission, reading the never-assigned id 5
gives `(0, false)`, the same answer as reading a freshly submitted id. -/
theorem getDecryptedData_unsubmitted_default_witness :
    (execTrace vTrue initState [.submit 42 100]).dataCount < 5 ∧
    (∀ d r, Op.request d r ∈ [Op.submit 42 100] → d ≠ 5) ∧
    (getDecryptedData (execTrace vTrue initState [.submit 42 100]) 5 = (0, false) ∧
      ∀ v t, getDecryptedData
        (submitEncryptedData (execTrace vTrue initState [.submit 42 100]) v t)
        ((execTrace vTrue initState [.submit 42 100]).dataCount + 1) = (0, false)) :=
  ⟨by decide, fun d r hm => by simp at hm,
    getDecryptedData_unsubmitted_default vTrue [.submit 42 100] 5 (by decide)
      (fun d r hm => by simp at hm)⟩
